import Mathlib

/-!
Verification of the slack-to-jira conversion pipeline.

The Python sources are shallowly embedded: strings are modelled as lists of
characters (`Str`), Python exceptions as `Except` results, and each external
HTTP collaborator (Slack API, Groq completion API, Jira REST API) as an
explicit function parameter supplying the responses the code would receive.
All definitions are translated from the repository sources
(`slack_client.py`, `ai_analyzer.py`, `jira_client.py`, `converter.py`).
-/

/-- Python strings are modelled as lists of characters. -/
abbrev Str := List Char

/-- Model of Python's `s.split(sep)` for a single-character separator:
splitting the empty string yields `[[]]`, and separators are not kept. -/
def splitOnChar (sep : Char) : Str → List Str
  | [] => [[]]
  | c :: cs =>
    if c = sep then [] :: splitOnChar sep cs
    else
      match splitOnChar sep cs with
      | [] => [[c]]
      | r :: rs => (c :: r) :: rs

/-- Model of Python's `sep.join(parts)` for a single-character separator. -/
def joinChar (sep : Char) : List Str → Str
  | [] => []
  | [x] => x
  | x :: xs => x ++ sep :: joinChar sep xs

/-- Drop the longest suffix of characters satisfying `p`. -/
def dropRightWhileChar (p : Char → Bool) (l : Str) : Str :=
  (l.reverse.dropWhile p).reverse

/-- Model of Python's `s.strip(c)` for a single character `c`: removes all
leading and trailing occurrences of `c`. -/
def pyStrip (c : Char) (s : Str) : Str :=
  dropRightWhileChar (fun x => x = c) (s.dropWhile (fun x => x = c))

/-- Python whitespace characters recognised by `str.strip()`. -/
def isPyWhitespace (c : Char) : Bool :=
  c = ' ' || c = '\t' || c = '\n' || c = '\r' || c = '\x0b' || c = '\x0c'

/-- Model of Python's `s.strip()` (strip whitespace from both ends). -/
def pyStripWs (s : Str) : Str :=
  dropRightWhileChar isPyWhitespace (s.dropWhile isPyWhitespace)

/-- Model of Python's `s.startswith(c)` for a single-character argument. -/
def startsWithChar (c : Char) : Str → Bool
  | [] => false
  | x :: _ => x = c

/-- First-match association-list lookup, modelling Python `dict` access
(`d[k]`, `k in d`, `d.get(k)`). -/
def lookupStr {α : Type} (k : Str) : List (Str × α) → Option α
  | [] => none
  | (k', v) :: rest => if k' = k then some v else lookupStr k rest

/-- Errors raised by the Slack client (`ValueError` for a malformed URL,
generic `Exception` carrying a message for API failures, and fuel
exhaustion standing in for a non-terminating pagination loop). -/
inductive SlackError where
  | invalidUrlFormat
  | apiError (msg : Str)
  | fuelExhausted
deriving DecidableEq, Repr

/-- The `for param in parsed.query.split('&')` loop of `parse_slack_url`
with its `break` on the first parameter starting with `thread_ts=`;
`param.split('=')[1]` is the element at index 1 of the split. -/
def firstThreadTs : List Str → Option Str
  | [] => none
  | param :: rest =>
    if "thread_ts=".toList.isPrefixOf param then
      some ((splitOnChar '=' param).getD 1 [])
    else firstThreadTs rest

/-- `SlackClient.parse_slack_url` (slack_client.py, lines 21-59), taking the
already-split `path` and `query` of the URL (the `urlparse` call is the
Python standard library; it extracts exactly these two components). -/
def parse_slack_url (path query : Str) : Except SlackError (Str × Str × Option Str) :=
  let path_parts := splitOnChar '/' (pyStrip '/' path)
  if path_parts.length < 3 ∨ path_parts.headD [] ≠ "archives".toList then
    .error .invalidUrlFormat
  else
    let channel_id := path_parts.getD 1 []
    let message_id := path_parts.getD 2 []
    let thread_ts :=
      if startsWithChar 'p' message_id then
        let ts := message_id.drop 1
        if ts.length > 6 then
          ts.take (ts.length - 6) ++ '.' :: ts.drop (ts.length - 6)
        else ts
      else message_id
    let query_thread_ts :=
      if query = [] then none
      else firstThreadTs (splitOnChar '&' query)
    .ok (channel_id, thread_ts, query_thread_ts)

/-- A Slack message, with the fields `format_messages` reads. `user` and `ts`
are `Option` because the code accesses them with `msg.get(...)` defaults. -/
structure Message where
  user : Option Str
  ts : Option Str
  text : Str
  attachments : List (Option Str × Option Str)
  files : List (Option Str × Option Str)
deriving DecidableEq, Repr

/-- Request parameters sent to the `conversations.replies` endpoint. -/
structure RepliesRequest where
  channel : Str
  ts : Str
  limit : Nat
  cursor : Option Str
deriving DecidableEq, Repr

/-- Response from the `conversations.replies` endpoint: `ok`, the optional
`error` code, the `messages` page, and `response_metadata.next_cursor`. -/
structure RepliesResponse where
  ok : Bool
  error : Option Str
  messages : List Message
  next_cursor : Option Str
deriving DecidableEq, Repr

/-- Request parameters sent to the `conversations.history` endpoint. -/
structure HistoryRequest where
  channel : Str
  latest : Str
  oldest : Str
  inclusive : Bool
  limit : Nat
deriving DecidableEq, Repr

/-- Response from the `conversations.history` endpoint. -/
structure HistoryResponse where
  ok : Bool
  error : Option Str
  messages : List Message
deriving DecidableEq, Repr

/-- The two Slack HTTP endpoints `get_thread_messages` talks to, modelled as
functions from request parameters to the JSON response received. -/
structure SlackApi where
  replies : RepliesRequest → RepliesResponse
  history : HistoryRequest → HistoryResponse

/-- The params dict built on each iteration of the `get_thread_messages`
loop: channel, thread timestamp, `limit: 100`, and the cursor when present. -/
def repliesRequest (channel ts : Str) (cursor : Option Str) : RepliesRequest :=
  ⟨channel, ts, 100, cursor⟩

/-- The params dict of `_get_single_message`: an inclusive one-timestamp
range with `limit: 1`. -/
def historyRequest (channel ts : Str) : HistoryRequest :=
  ⟨channel, ts, ts, true, 1⟩

/-- Python truthiness of the optional `next_cursor` string (`if not cursor`). -/
def cursorTruthy : Option Str → Bool
  | none => false
  | some [] => false
  | some (_ :: _) => true

/-- `SlackClient._get_single_message` (slack_client.py, lines 123-139). -/
def get_single_message (api : SlackApi) (channel ts : Str) :
    Except SlackError (List Message) :=
  let data := api.history (historyRequest channel ts)
  if data.ok then .ok data.messages
  else .error (.apiError (data.error.getD "Unknown error".toList))

/-- The `while True` pagination loop of `get_thread_messages`
(slack_client.py, lines 92-119), with `fuel` bounding the number of
iterations (the loop itself has no bound; every claim supplies a response
chain that terminates within the given fuel). -/
def get_thread_messages_loop (api : SlackApi) (channel ts : Str) :
    Nat → Option Str → List Message → Except SlackError (List Message)
  | 0, _, _ => .error .fuelExhausted
  | fuel + 1, cursor, messages =>
    let data := api.replies (repliesRequest channel ts cursor)
    if data.ok = false then
      if data.error = some "thread_not_found".toList then
        get_single_message api channel ts
      else
        .error (.apiError (data.error.getD "Unknown error".toList))
    else
      let messages := messages ++ data.messages
      let cursor := data.next_cursor
      if cursorTruthy cursor then
        get_thread_messages_loop api channel ts fuel cursor messages
      else
        .ok messages

/-- `SlackClient.get_thread_messages` (slack_client.py, lines 87-121):
start with no cursor and an empty accumulator. -/
def get_thread_messages (api : SlackApi) (channel ts : Str) (fuel : Nat) :
    Except SlackError (List Message) :=
  get_thread_messages_loop api channel ts fuel none []

/-- The chain of responses the `replies` endpoint produces along the cursors
actually followed from `cursor`: every page is `ok`, every page but the last
carries a truthy `next_cursor`, and the last page's cursor is falsy. -/
def okChain (api : SlackApi) (channel ts : Str) :
    Option Str → List RepliesResponse → Bool
  | _, [] => false
  | cursor, r :: rest =>
    decide (api.replies (repliesRequest channel ts cursor) = r) && r.ok &&
      (match rest with
       | [] => !(cursorTruthy r.next_cursor)
       | _ :: _ => cursorTruthy r.next_cursor && okChain api channel ts r.next_cursor rest)

/-- The result of a `users.info` lookup as shaped by `get_user_info`
(both fields are always present in the dict it returns). -/
structure UserInfo where
  name : Str
  real_name : Str
deriving DecidableEq, Repr

/-- The `for msg in messages` loop of `format_messages` (slack_client.py,
lines 141-172). `api` models `get_user_info`, `render` models
`datetime.fromtimestamp(float(ts)).strftime('%Y-%m-%d %H:%M')` (a
standard-library conversion of the raw `ts` string). Returns the formatted
blocks, the final user cache, and the trace of user ids actually passed to
`get_user_info`. -/
def format_messages_go (api : Str → UserInfo) (render : Option Str → Str) :
    List Message → List (Str × UserInfo) →
    List Str × List (Str × UserInfo) × List Str
  | [], user_cache => ([], user_cache, [])
  | msg :: rest, user_cache =>
    let user_id := msg.user.getD "Unknown".toList
    let step :=
      match lookupStr user_id user_cache with
      | some _ => (user_cache, ([] : List Str))
      | none => (user_cache ++ [(user_id, api user_id)], [user_id])
    let user_name := ((lookupStr user_id step.1).getD ⟨user_id, user_id⟩).real_name
    let text := msg.text
    let text := msg.attachments.foldl (fun t att =>
      let t := match att.1 with
        | some s => if s ≠ [] then t ++ "\n[Attachment: ".toList ++ s ++ "]".toList else t
        | none => t
      match att.2 with
        | some s => if s ≠ [] then t ++ "\n[Attachment Title: ".toList ++ s ++ "]".toList else t
        | none => t) text
    let text := msg.files.foldl (fun t f =>
      t ++ "\n[File: ".toList ++ f.1.getD "unnamed".toList ++ " - ".toList ++
        f.2.getD "unknown type".toList ++ "]".toList) text
    let block := '[' :: render msg.ts ++ "] ".toList ++ user_name ++ ":\n".toList ++
      text ++ ['\n']
    let r := format_messages_go api render rest step.1
    (block :: r.1, r.2.1, step.2 ++ r.2.2)

/-- `SlackClient.format_messages`: the joined transcript together with the
trace of `users.info` lookups performed. -/
def format_messages (api : Str → UserInfo) (render : Option Str → Str)
    (messages : List Message) : Str × List Str :=
  let (blocks, _, calls) := format_messages_go api render messages []
  (joinChar '\n' blocks, calls)

/-- The author id `format_messages` resolves for a message
(`msg.get("user", "Unknown")`). -/
def messageUser (msg : Message) : Str :=
  msg.user.getD "Unknown".toList

/-- A JSON object as the analyzer handles it: an ordered field map. Field
values are modelled as strings (the claims only inspect which keys are
present and pass the values through opaquely). -/
abbrev JsonObj := List (Str × Str)

/-- The `re.search` for the greedy pattern of an opening brace, anything,
and a closing brace in `analyze_thread`: the substring from the first
opening brace through the last closing brace, when both exist in order. -/
def json_match (s : Str) : Option Str :=
  let pre := s.takeWhile (fun ch => ch ≠ '{')
  let rest := s.drop pre.length
  match rest with
  | [] => none
  | _ :: _ =>
    let tailJunk := rest.reverse.takeWhile (fun ch => ch ≠ '}')
    if tailJunk.length = rest.length then none
    else some (rest.take (rest.length - tailJunk.length))

/-- `GroqAnalyzer._fallback_analysis` (ai_analyzer.py, lines 98-109):
the filtered-and-stripped line list
(`[l.strip() for l in thread_content.split('\n') if l.strip() and not l.startswith('[')]`). -/
def fallbackLines (thread_content : Str) : List Str :=
  ((splitOnChar '\n' thread_content).filter
    (fun l => !(pyStripWs l).isEmpty && !startsWithChar '[' l)).map pyStripWs

/-- `GroqAnalyzer._fallback_analysis`: the basic draft built from the
transcript when AI analysis fails. -/
def fallback_analysis (thread_content : Str) : JsonObj :=
  let first_message :=
    match fallbackLines thread_content with
    | l :: _ => l.take 80
    | [] => "Slack Discussion".toList
  [("title".toList, "Issue from Slack: ".toList ++ first_message),
   ("summary".toList,
     "h3. Slack Discussion\n\n".toList ++ thread_content.take 4000 ++
       "\n\n----\n_Note: Auto-generated from Slack thread._".toList),
   ("issue_type".toList, "Task".toList),
   ("priority".toList, "Major".toList)]

/-- The response-handling tail of `GroqAnalyzer.analyze_thread`
(ai_analyzer.py, lines 81-96) for a 200-status completion response:
`cleaned` is the model's text after the code-fence-stripping `re.sub`
calls, and `jsonParse` models the standard-library `json.loads`, returning
`none` when parsing raises `JSONDecodeError` (or yields a non-object). -/
def analyze_response (jsonParse : Str → Option JsonObj)
    (cleaned thread_content : Str) : JsonObj :=
  match json_match cleaned with
  | some sub =>
    match jsonParse sub with
    | some parsed =>
      if (lookupStr "title".toList parsed).isSome &&
          (lookupStr "summary".toList parsed).isSome then
        parsed
      else fallback_analysis thread_content
    | none => fallback_analysis thread_content
  | none => fallback_analysis thread_content

/-- The dict of issue fields passed to the jira library's issue creation.
`summary`/`description` are `none` in the minimal-creation dict. -/
structure IssueFields where
  project : Str
  summary : Option Str
  description : Option Str
  issuetype : Str
deriving DecidableEq, Repr

/-- The issue object the tracker reports back: `{key, id, self}`. -/
structure CreatedIssue where
  key : Str
  id : Str
  selfLink : Str
deriving DecidableEq, Repr

/-- The full-field creation dict of `JiraClient.create_issue`
(title truncated to 255 characters). -/
def fullFields (project_key title description issue_type : Str) : IssueFields :=
  ⟨project_key, some (title.take 255), some description, issue_type⟩

/-- The minimal creation dict of `JiraClient._create_minimal_issue`. -/
def minimalFields (project_key issue_type : Str) : IssueFields :=
  ⟨project_key, none, none, issue_type⟩

/-- The description built by `JiraClient.create_issue`: the summary plus a
Slack source reference when the URL is truthy (`if slack_url:` — `None`
and the empty string are both falsy and skip the Source line). -/
def issueDescription (summary : Str) (slack_url : Option Str) : Str :=
  match slack_url with
  | some u =>
    if u ≠ [] then
      summary ++ "\n\n----\n*Source:* Created from Slack discussion: ".toList ++ u
    else summary
  | none => summary

/-- Python's substring test `needle in hay`. -/
def isSubstring (needle : Str) : Str → Bool
  | [] => needle.isEmpty
  | c :: cs => needle.isPrefixOf (c :: cs) || isSubstring needle cs

/-- Whether an error message indicates the tracker's field/screen
restriction (`"cannot be set" in error_msg or "not on the appropriate screen" in error_msg`). -/
def isRestrictionError (e : Str) : Bool :=
  isSubstring "cannot be set".toList e || isSubstring "not on the appropriate screen".toList e

/-- The comment `_create_minimal_issue` attaches: the title as a header,
the description, and a suggested-priority line when the priority is truthy
(`if priority:` — `None` and the empty string are both falsy and skip the
line). -/
def minimalComment (title description : Str) (priority : Option Str) : Str :=
  let comment_text := "h3. ".toList ++ title ++ "\n\n".toList ++ description
  match priority with
  | some p =>
    if p ≠ [] then comment_text ++ "\n\n*Suggested Priority:* ".toList ++ p
    else comment_text
  | none => comment_text

/-- `JiraClient._create_minimal_issue` (jira_client.py, lines 61-90):
`create` models the jira library's issue creation over a fresh connection,
`addComment` its `add_comment` call, which may raise; a failing
`add_comment` propagates out of the whole creation (the code does not
catch it). On success the added comment is returned alongside the issue. -/
def create_minimal_issue (create : IssueFields → Except Str CreatedIssue)
    (addComment : CreatedIssue → Str → Except Str Unit)
    (project_key issue_type title description : Str) (priority : Option Str) :
    Except Str (CreatedIssue × List Str) :=
  match create (minimalFields project_key issue_type) with
  | .ok issue =>
    let comment_text := minimalComment title description priority
    match addComment issue comment_text with
    | .ok _ => .ok (issue, [comment_text])
    | .error e => .error e
  | .error e => .error e

/-- `JiraClient.create_issue` (jira_client.py, lines 20-59). The unused
`extra_fields` parameter of the Python signature is omitted (the body never
reads it). -/
def create_issue (create : IssueFields → Except Str CreatedIssue)
    (addComment : CreatedIssue → Str → Except Str Unit)
    (project_key title summary issue_type : Str) (priority : Option Str)
    (slack_url : Option Str) : Except Str (CreatedIssue × List Str) :=
  let description := issueDescription summary slack_url
  match create (fullFields project_key title description issue_type) with
  | .ok issue => .ok (issue, [])
  | .error e =>
    if isRestrictionError e then
      create_minimal_issue create addComment project_key issue_type title
        description priority
    else .error e

/-- Python's `a or b` for an optional string `a` (`None` and the empty
string are falsy). -/
def pyOr (a : Option Str) (b : Str) : Str :=
  match a with
  | some s => if s = [] then b else s
  | none => b

/-- Python's `d.get(k, default)`: the present value wins even when falsy. -/
def lookupD (obj : JsonObj) (k : Str) (default : Str) : Str :=
  (lookupStr k obj).getD default

/-- Errors aborting the conversion pipeline. -/
inductive PipelineError where
  | slack (e : SlackError)
  | summarizer (e : Str)
  | noMessagesFound
  | jira (e : Str)
deriving DecidableEq, Repr

/-- The dict `SlackToJira.process` returns: the dry-run report or the
created-issue report. -/
inductive ProcessResult where
  | dry (project : Str) (type : Str) (title summary priority : Option Str)
  | created (issue_key : Str) (issue_url : Str) (title : Option Str)
      (issue_type : Str) (priority : Option Str)
deriving DecidableEq, Repr

/-- The collaborators and configuration `SlackToJira.process` reaches:
`parse` is `parse_slack_url` composed with the standard-library `urlparse`
of the full URL; `channel_info` the (best-effort) `conversations.info`
name; `fetch` is `get_thread_messages` with its HTTP transport applied;
`analyze` is `analyze_thread` (transcript and channel name to draft, or a
Groq API error); `create` and `addComment` the jira library's creation
and comment calls; the remaining fields come from the config module. -/
structure ProcessEnv where
  parse : Str → Except SlackError (Str × Str × Option Str)
  channel_info : Except Str (Option Str)
  fetch : Str → Str → Except SlackError (List Message)
  userApi : Str → UserInfo
  render : Option Str → Str
  analyze : Str → Str → Except Str JsonObj
  create : IssueFields → Except Str CreatedIssue
  addComment : CreatedIssue → Str → Except Str Unit
  jira_url : Str
  jira_project : Str
  default_issue_type : Str

/-- The `try get_channel_info / except` block of `process`: the channel
name, degrading to `"unknown"` on any failure (the failure is swallowed). -/
def channelNameOf (env : ProcessEnv) : Str :=
  match env.channel_info with
  | .ok info => info.getD "unknown".toList
  | .error _ => "unknown".toList

/-- `SlackToJira.process` (converter.py, lines 63-186). -/
def SlackToJira.process (env : ProcessEnv) (slack_url : Str)
    (project_key issue_type : Option Str) (dry_run : Bool) :
    Except PipelineError ProcessResult :=
  let project := pyOr project_key env.jira_project
  match env.parse slack_url with
  | .error e => .error (.slack e)
  | .ok (channel_id, thread_ts, _) =>
    match env.fetch channel_id thread_ts with
    | .error e => .error (.slack e)
    | .ok messages =>
      if messages = [] then .error .noMessagesFound
      else
        let thread_content := (format_messages env.userApi env.render messages).1
        match env.analyze thread_content (channelNameOf env) with
        | .error e => .error (.summarizer e)
        | .ok analysis =>
          let final_issue_type :=
            pyOr issue_type (lookupD analysis "issue_type".toList env.default_issue_type)
          if dry_run then
            .ok (.dry project final_issue_type
              (lookupStr "title".toList analysis)
              (lookupStr "summary".toList analysis)
              (lookupStr "priority".toList analysis))
          else
            match create_issue env.create env.addComment project
                (lookupD analysis "title".toList "Issue from Slack".toList)
                (lookupD analysis "summary".toList (thread_content.take 5000))
                final_issue_type
                (lookupStr "priority".toList analysis)
                (some slack_url) with
            | .error e => .error (.jira e)
            | .ok (issue, _) =>
              .ok (.created issue.key
                (env.jira_url ++ "/browse/".toList ++ issue.key)
                (lookupStr "title".toList analysis)
                final_issue_type
                (lookupStr "priority".toList analysis))

/-! ### Lemmas about the string helpers -/

lemma splitOnChar_ne_nil (sep : Char) (l : Str) : splitOnChar sep l ≠ [] := by
  induction l with
  | nil => simp [splitOnChar]
  | cons c cs ih =>
    rw [splitOnChar]
    split
    · simp
    · cases h : splitOnChar sep cs with
      | nil => simp
      | cons r rs => simp

lemma splitOnChar_of_not_mem {sep : Char} {l : Str} (h : sep ∉ l) :
    splitOnChar sep l = [l] := by
  induction l with
  | nil => rfl
  | cons c cs ih =>
    have hc : ¬c = sep := fun hc => h (hc ▸ List.mem_cons_self c cs)
    have hcs : sep ∉ cs := fun hm => h (List.mem_cons_of_mem c hm)
    rw [splitOnChar, if_neg hc, ih hcs]

lemma splitOnChar_append {sep : Char} {xs : Str} (ys : Str) (h : sep ∉ xs) :
    splitOnChar sep (xs ++ sep :: ys) = xs :: splitOnChar sep ys := by
  induction xs with
  | nil => simp [splitOnChar]
  | cons c cs ih =>
    have hc : ¬c = sep := fun hc => h (hc ▸ List.mem_cons_self c cs)
    have hcs : sep ∉ cs := fun hm => h (List.mem_cons_of_mem c hm)
    rw [List.cons_append, splitOnChar, if_neg hc, ih hcs]

lemma splitOnChar_head (sep : Char) (l : Str) :
    ∃ rest, splitOnChar sep l = l.takeWhile (fun c => c ≠ sep) :: rest := by
  induction l with
  | nil => exact ⟨[], rfl⟩
  | cons c cs ih =>
    by_cases hc : c = sep
    · subst hc
      refine ⟨splitOnChar c cs, ?_⟩
      rw [splitOnChar, if_pos rfl]
      simp [List.takeWhile_cons]
    · obtain ⟨rest, hrest⟩ := ih
      refine ⟨rest, ?_⟩
      rw [splitOnChar, if_neg hc, hrest]
      simp [List.takeWhile_cons, hc]

lemma joinChar_eq_nil_iff (sep : Char) (ps : List Str) :
    joinChar sep ps = [] ↔ ps = [] ∨ ps = [[]] := by
  match ps with
  | [] => simp [joinChar]
  | [x] => simp [joinChar]
  | x :: y :: r =>
    rw [joinChar]
    constructor
    · intro h
      exact absurd (List.append_eq_nil.mp h).2 (by simp)
    · intro h
      rcases h with h | h <;> simp_all
    · simp

lemma splitOnChar_joinChar {sep : Char} {ps : List Str} (hne : ps ≠ [])
    (h : ∀ p ∈ ps, sep ∉ p) :
    splitOnChar sep (joinChar sep ps) = ps := by
  induction ps with
  | nil => exact absurd rfl hne
  | cons x xs ih =>
    match xs with
    | [] =>
      rw [joinChar]
      exact splitOnChar_of_not_mem (h x (List.mem_cons_self x []))
    | y :: r =>
      rw [joinChar, splitOnChar_append _ (h x (List.mem_cons_self x _))]
      · rw [ih (by simp) (fun p hp => h p (List.mem_cons_of_mem x hp))]
      · simp

lemma dropRightWhileChar_append {p : Char → Bool} (xs : Str) {m : Str}
    (hne : m ≠ []) (h : ∀ y ∈ m, p y = false) :
    dropRightWhileChar p (xs ++ m) = xs ++ m := by
  unfold dropRightWhileChar
  cases hr : m.reverse with
  | nil => exact absurd (List.reverse_eq_nil_iff.mp hr) hne
  | cons a t =>
    have ha : p a = false := by
      refine h a ?_
      rw [← List.mem_reverse, hr]
      exact List.mem_cons_self a t
    rw [List.reverse_append, hr, List.cons_append, List.dropWhile_cons, ha]
    simp only [Bool.false_eq_true, if_false]
    rw [← List.cons_append, ← hr, ← List.reverse_append, List.reverse_reverse]

lemma lookupStr_append {α : Type} (k : Str) (l₁ l₂ : List (Str × α)) :
    lookupStr k (l₁ ++ l₂) = (lookupStr k l₁).or (lookupStr k l₂) := by
  induction l₁ with
  | nil => simp [lookupStr, Option.none_or]
  | cons e rest ih =>
    obtain ⟨k', v⟩ := e
    by_cases he : k' = k
    · simp [lookupStr, he, Option.or_some]
    · simp [lookupStr, he, ih]

/-- `parse_slack_url` with its let-bindings reduced, for rewriting. -/
lemma parse_slack_url_eq (path query : Str) :
    parse_slack_url path query =
      if (splitOnChar '/' (pyStrip '/' path)).length < 3 ∨
          (splitOnChar '/' (pyStrip '/' path)).headD [] ≠ "archives".toList then
        .error .invalidUrlFormat
      else
        .ok ((splitOnChar '/' (pyStrip '/' path)).getD 1 [],
          (if startsWithChar 'p' ((splitOnChar '/' (pyStrip '/' path)).getD 2 []) then
            if (((splitOnChar '/' (pyStrip '/' path)).getD 2 []).drop 1).length > 6 then
              (((splitOnChar '/' (pyStrip '/' path)).getD 2 []).drop 1).take
                  ((((splitOnChar '/' (pyStrip '/' path)).getD 2 []).drop 1).length - 6) ++
                '.' :: (((splitOnChar '/' (pyStrip '/' path)).getD 2 []).drop 1).drop
                  ((((splitOnChar '/' (pyStrip '/' path)).getD 2 []).drop 1).length - 6)
            else ((splitOnChar '/' (pyStrip '/' path)).getD 2 []).drop 1
          else (splitOnChar '/' (pyStrip '/' path)).getD 2 []),
          if query = [] then none else firstThreadTs (splitOnChar '&' query)) := rfl

/-- The URL path `/archives/<c>/<m>`, as a character list. -/
def pathChars (c m : Str) : Str :=
  '/' :: ("archives".toList ++ '/' :: (c ++ '/' :: m))

lemma split_pathChars (c m : Str) (hc : '/' ∉ c) (hm : '/' ∉ m) (hmne : m ≠ []) :
    splitOnChar '/' (pyStrip '/' (pathChars c m)) = ["archives".toList, c, m] := by
  have hA : ('/' : Char) ∉ "archives".toList := by decide
  have h1 : pyStrip '/' (pathChars c m) =
      "archives".toList ++ '/' :: (c ++ '/' :: m) := by
    unfold pyStrip
    have hstep : List.dropWhile (fun x => x = '/') (pathChars c m) =
        "archives".toList ++ '/' :: (c ++ '/' :: m) := rfl
    rw [hstep]
    have hre : "archives".toList ++ '/' :: (c ++ '/' :: m) =
        ("archives".toList ++ '/' :: c ++ ['/']) ++ m := by simp
    rw [hre]
    refine dropRightWhileChar_append _ hmne ?_
    intro y hy
    simp only [decide_eq_false_iff_not]
    exact fun h => hm (h ▸ hy)
  rw [h1, splitOnChar_append _ hA, splitOnChar_append _ hc,
    splitOnChar_of_not_mem hm]

/-- C4: for every URL whose path is `/archives/<C>/p<digits>`,
`parse_slack_url` returns channel id `<C>` and, when the digit string is
longer than 6 characters, a thread timestamp with a decimal point inserted
6 digits from the end; when it has at most 6 characters the string is used
as-is; and a message id not starting with `p` is used verbatim. -/
theorem parse_slack_url_valid_path (c m ds : Str)
    (hc : '/' ∉ c) (hm : '/' ∉ m) (hmne : m ≠ []) (hds : '/' ∉ ds) :
    (ds.length > 6 →
      parse_slack_url (pathChars c ('p' :: ds)) [] =
        .ok (c, ds.take (ds.length - 6) ++ '.' :: ds.drop (ds.length - 6), none))
    ∧ (ds.length ≤ 6 →
      parse_slack_url (pathChars c ('p' :: ds)) [] = .ok (c, ds, none))
    ∧ (startsWithChar 'p' m = false →
      parse_slack_url (pathChars c m) [] = .ok (c, m, none)) := by
  have hpds : '/' ∉ ('p' :: ds) := by
    intro h
    rcases List.mem_cons.mp h with h | h
    · exact absurd h (by decide)
    · exact hds h
  have h1 := split_pathChars c ('p' :: ds) hc hpds (by simp)
  have h2 := split_pathChars c m hc hm hmne
  refine ⟨fun h6 => ?_, fun h6 => ?_, fun hp => ?_⟩
  · rw [parse_slack_url_eq, h1]
    simp [startsWithChar, h6]
  · rw [parse_slack_url_eq, h1]
    have : ¬(ds.length > 6) := by omega
    simp [startsWithChar, this]
  · rw [parse_slack_url_eq, h2]
    simp [hp]

/-- C4 witness: the compact-timestamp example `p1234567890123456`, the
six-digit edge case `p123456`, and a verbatim timestamp `1234.5678`. -/
theorem parse_slack_url_valid_path_witness :
    parse_slack_url "/archives/C01234567/p1234567890123456".toList [] =
      .ok ("C01234567".toList, "1234567890.123456".toList, none)
    ∧ parse_slack_url "/archives/C01/p123456".toList [] =
      .ok ("C01".toList, "123456".toList, none)
    ∧ parse_slack_url "/archives/C01/1234.5678".toList [] =
      .ok ("C01".toList, "1234.5678".toList, none) := by
  refine ⟨?_, ?_, ?_⟩
  · have h := (parse_slack_url_valid_path "C01234567".toList "x".toList
      "1234567890123456".toList (by decide) (by decide) (by decide) (by decide)).1
      (by decide)
    exact h
  · have h := (parse_slack_url_valid_path "C01".toList "x".toList
      "123456".toList (by decide) (by decide) (by decide) (by decide)).2.1
      (by decide)
    exact h
  · have h := (parse_slack_url_valid_path "C01".toList "1234.5678".toList
      "0".toList (by decide) (by decide) (by decide) (by decide)).2.2
      (by decide)
    exact h

/-- C3 counterexample: a path with an additional component after the two
(`/archives/<C>/<messageId>/extra`) is accepted by `parse_slack_url` (the
extra component is ignored), where the claim requires failure. -/
theorem parse_slack_url_extra_components :
    parse_slack_url "/archives/C01234567/p123/extra".toList [] =
      .ok ("C01234567".toList, "123".toList, none)
    ∧ parse_slack_url "/archives/C01234567/p123/extra".toList [] ≠
      .error .invalidUrlFormat := by
  constructor
  · rfl
  · intro h
    have h1 : parse_slack_url "/archives/C01234567/p123/extra".toList [] =
        .ok ("C01234567".toList, "123".toList, none) := rfl
    rw [h1] at h
    exact absurd h (by simp)

/-- C3 amended: `parse_slack_url` fails, always with `InvalidUrlFormat` and
never with a partial parse, exactly when the stripped path does not split
into an `archives` segment followed by at least two further components;
extra components beyond the two are accepted (and ignored). -/
theorem parse_slack_url_error_characterisation (path query : Str) :
    ((∃ r, parse_slack_url path query = .ok r) ↔
      ∃ c m rest, splitOnChar '/' (pyStrip '/' path) =
        "archives".toList :: c :: m :: rest)
    ∧ (parse_slack_url path query = .error .invalidUrlFormat ↔
      ¬ ∃ c m rest, splitOnChar '/' (pyStrip '/' path) =
        "archives".toList :: c :: m :: rest) := by
  have key : ((splitOnChar '/' (pyStrip '/' path)).length < 3 ∨
      (splitOnChar '/' (pyStrip '/' path)).headD [] ≠ "archives".toList) ↔
      ¬ ∃ c m rest, splitOnChar '/' (pyStrip '/' path) =
        "archives".toList :: c :: m :: rest := by
    constructor
    · rintro (hl | hh) ⟨c, m, rest, he⟩
      · rw [he] at hl
        simp at hl
        omega
      · rw [he] at hh
        simp at hh
    · intro hne
      by_contra hcon
      push_neg at hcon
      obtain ⟨hl, hh⟩ := hcon
      rcases hsp : splitOnChar '/' (pyStrip '/' path) with _ | ⟨a, _ | ⟨b, _ | ⟨d, rest⟩⟩⟩
      · rw [hsp] at hl; simp at hl
      · rw [hsp] at hl; simp at hl
      · rw [hsp] at hl; simp at hl
      · rw [hsp] at hh
        simp only [List.headD_cons] at hh
        exact hne ⟨b, d, rest, by rw [hsp, hh]⟩
  by_cases hcond : ((splitOnChar '/' (pyStrip '/' path)).length < 3 ∨
      (splitOnChar '/' (pyStrip '/' path)).headD [] ≠ "archives".toList)
  · have herr : parse_slack_url path query = .error .invalidUrlFormat := by
      rw [parse_slack_url_eq, if_pos hcond]
    constructor
    · constructor
      · rintro ⟨r, hr⟩
        rw [herr] at hr
        exact absurd hr (by simp)
      · intro hgood
        exact absurd hgood (key.mp hcond)
    · constructor
      · intro _
        exact key.mp hcond
      · intro _
        exact herr
  · have hok : ∃ r, parse_slack_url path query = .ok r := by
      have hpar := parse_slack_url_eq path query
      rw [if_neg hcond] at hpar
      exact ⟨_, hpar⟩
    have hgood : ∃ c m rest, splitOnChar '/' (pyStrip '/' path) =
        "archives".toList :: c :: m :: rest := by
      by_contra hbad
      exact hcond (key.mpr hbad)
    constructor
    · exact ⟨fun _ => hgood, fun _ => hok⟩
    · constructor
      · intro herr
        obtain ⟨r, hr⟩ := hok
        rw [herr] at hr
        exact absurd hr (by simp)
      · intro hbad
        exact absurd hgood hbad

lemma firstThreadTs_append {pre : List Str} (X : Str) (post : List Str)
    (hpre : ∀ p ∈ pre, "thread_ts=".toList.isPrefixOf p = false)
    (hX : "thread_ts=".toList.isPrefixOf X = true) :
    firstThreadTs (pre ++ X :: post) = some ((splitOnChar '=' X).getD 1 []) := by
  induction pre with
  | nil =>
    rw [List.nil_append, firstThreadTs, if_pos hX]
  | cons p ps ih =>
    have hp := hpre p (List.mem_cons_self p ps)
    rw [List.cons_append, firstThreadTs,
      if_neg (by simp only [hp]; exact Bool.false_ne_true),
      ih (fun q hq => hpre q (List.mem_cons_of_mem p hq))]

lemma splitOnChar_key_value (v : Str) :
    (splitOnChar '=' ("thread_ts=".toList ++ v)).getD 1 [] =
      v.takeWhile (fun ch => ch ≠ '=') := by
  have h1 : "thread_ts=".toList ++ v = "thread_ts".toList ++ '=' :: v := by simp
  rw [h1, splitOnChar_append v (by decide)]
  obtain ⟨rest, hrest⟩ := splitOnChar_head '=' v
  rw [hrest]
  rfl

/-- C10: for every URL whose query string contains a parameter beginning
with `thread_ts=`, `parse_slack_url` returns as the override timestamp the
portion of that parameter's value before the first `=` after the key (the
parameter is split on `=` and the piece at index 1 is taken, silently
truncating a value that itself contains `=`); the first such parameter in
query-string order wins. -/
theorem parse_slack_url_query_override (c m : Str) (pre : List Str)
    (v : Str) (post : List Str)
    (hc : '/' ∉ c) (hm : '/' ∉ m) (hmne : m ≠ [])
    (hpre : ∀ p ∈ pre, '&' ∉ p ∧ "thread_ts=".toList.isPrefixOf p = false)
    (hv : '&' ∉ v) (hpost : ∀ p ∈ post, '&' ∉ p) :
    ∃ ts, parse_slack_url (pathChars c m)
        (joinChar '&' (pre ++ ("thread_ts=".toList ++ v) :: post)) =
      .ok (c, ts, some (v.takeWhile (fun ch => ch ≠ '='))) := by
  have hXfree : '&' ∉ "thread_ts=".toList ++ v := by
    intro h
    rcases List.mem_append.mp h with h | h
    · exact absurd h (by decide)
    · exact hv h
  have hall : ∀ p ∈ pre ++ ("thread_ts=".toList ++ v) :: post, '&' ∉ p := by
    intro p hp
    rcases List.mem_append.mp hp with h | h
    · exact (hpre p h).1
    · rcases List.mem_cons.mp h with h | h
      · exact h ▸ hXfree
      · exact hpost p h
  have hqne : joinChar '&' (pre ++ ("thread_ts=".toList ++ v) :: post) ≠ [] := by
    intro h
    rcases (joinChar_eq_nil_iff _ _).mp h with h | h
    · exact absurd h (by simp)
    · have hmem : ("thread_ts=".toList ++ v) ∈
          pre ++ ("thread_ts=".toList ++ v) :: post := by simp
      rw [h] at hmem
      simp at hmem
  have hsplit := @splitOnChar_joinChar '&'
    (pre ++ ("thread_ts=".toList ++ v) :: post) (by simp) hall
  have hX : "thread_ts=".toList.isPrefixOf ("thread_ts=".toList ++ v) = true :=
    List.isPrefixOf_iff_prefix.mpr (List.prefix_append _ _)
  have hfirst := firstThreadTs_append ("thread_ts=".toList ++ v) post
    (fun p hp => (hpre p hp).2) hX
  rw [parse_slack_url_eq, split_pathChars c m hc hm hmne,
    if_neg (by simp), if_neg hqne, hsplit, hfirst, splitOnChar_key_value]
  exact ⟨_, rfl⟩

/-- C10 witness: `thread_ts=1699.0042=junk&other=1` yields the override
`1699.0042`, truncated at the embedded `=`. -/
theorem parse_slack_url_query_override_witness :
    parse_slack_url "/archives/C07/p99".toList
        "thread_ts=1699.0042=junk&other=1".toList =
      .ok ("C07".toList, "99".toList, some "1699.0042".toList) := by
  obtain ⟨ts, hts⟩ := parse_slack_url_query_override "C07".toList "p99".toList
    [] "1699.0042=junk".toList ["other=1".toList]
    (by decide) (by decide) (by decide) (by simp) (by decide)
    (by intro p hp; simp at hp; subst hp; decide)
  have hts' : parse_slack_url "/archives/C07/p99".toList
      "thread_ts=1699.0042=junk&other=1".toList =
      .ok ("C07".toList, ts, some "1699.0042".toList) := hts
  have h0 : parse_slack_url "/archives/C07/p99".toList
      "thread_ts=1699.0042=junk&other=1".toList =
      .ok ("C07".toList, "99".toList, some "1699.0042".toList) := rfl
  have h1 := hts'.symm.trans h0
  simp only [Except.ok.injEq, Prod.mk.injEq] at h1
  rw [← h1.2.1]
  exact hts'

/-- C5: for every channel id and timestamp, a first `conversations.replies`
response with `ok = false` and error `thread_not_found` makes
`get_thread_messages` fall back to the single-message history path and
return exactly what that path yields (in particular the history messages
when the history call is ok); any other reported error code on a non-ok
response raises a fatal Slack API error carrying that code. -/
theorem get_thread_messages_not_ok (api : SlackApi) (channel ts : Str)
    (fuel : Nat)
    (hok : (api.replies (repliesRequest channel ts none)).ok = false) :
    ((api.replies (repliesRequest channel ts none)).error =
        some "thread_not_found".toList →
      get_thread_messages api channel ts (fuel + 1) =
        get_single_message api channel ts)
    ∧ ((api.replies (repliesRequest channel ts none)).error =
        some "thread_not_found".toList →
      (api.history (historyRequest channel ts)).ok = true →
      get_thread_messages api channel ts (fuel + 1) =
        .ok (api.history (historyRequest channel ts)).messages)
    ∧ (∀ e, (api.replies (repliesRequest channel ts none)).error = some e →
      e ≠ "thread_not_found".toList →
      get_thread_messages api channel ts (fuel + 1) =
        .error (.apiError e)) := by
  refine ⟨fun herr => ?_, fun herr hhist => ?_, fun e herr hne => ?_⟩
  · rw [get_thread_messages, get_thread_messages_loop]
    simp only [hok, herr, if_true]
  · rw [get_thread_messages, get_thread_messages_loop]
    simp only [hok, herr, if_true]
    simp [get_single_message, hhist]
  · rw [get_thread_messages, get_thread_messages_loop]
    simp only [hok, herr, if_true]
    rw [if_neg (fun h => hne (Option.some_inj.mp h))]
    rfl

/-- C5 witness: a `thread_not_found` reply falls back to the one history
message; an `invalid_auth` reply is fatal with that code. -/
theorem get_thread_messages_not_ok_witness :
    get_thread_messages
      ⟨fun _ => ⟨false, some "thread_not_found".toList, [], none⟩,
       fun _ => ⟨true, none, [⟨some "U1".toList, some "1".toList, "hi".toList, [], []⟩]⟩⟩
      "C1".toList "1.2".toList 1 =
      .ok [⟨some "U1".toList, some "1".toList, "hi".toList, [], []⟩]
    ∧ get_thread_messages
      ⟨fun _ => ⟨false, some "invalid_auth".toList, [], none⟩,
       fun _ => ⟨true, none, []⟩⟩
      "C1".toList "1.2".toList 1 =
      .error (.apiError "invalid_auth".toList) := by
  constructor
  · exact (get_thread_messages_not_ok
      ⟨fun _ => ⟨false, some "thread_not_found".toList, [], none⟩,
       fun _ => ⟨true, none, [⟨some "U1".toList, some "1".toList, "hi".toList, [], []⟩]⟩⟩
      "C1".toList "1.2".toList 0 rfl).2.1 rfl rfl
  · exact (get_thread_messages_not_ok
      ⟨fun _ => ⟨false, some "invalid_auth".toList, [], none⟩,
       fun _ => ⟨true, none, []⟩⟩
      "C1".toList "1.2".toList 0 rfl).2.2 "invalid_auth".toList rfl (by decide)

lemma get_thread_messages_loop_okChain (api : SlackApi) (channel ts : Str) :
    ∀ (rs : List RepliesResponse) (cursor : Option Str) (acc : List Message)
      (fuel : Nat), okChain api channel ts cursor rs = true →
      rs.length ≤ fuel →
      get_thread_messages_loop api channel ts fuel cursor acc =
        .ok (acc ++ (rs.map RepliesResponse.messages).flatten) := by
  intro rs
  induction rs with
  | nil =>
    intro cursor acc fuel h _
    simp [okChain] at h
  | cons r rest ih =>
    intro cursor acc fuel h hlen
    rw [okChain.eq_def] at h
    rw [Bool.and_eq_true, Bool.and_eq_true] at h
    obtain ⟨⟨hd, hok⟩, h2⟩ := h
    have hr : api.replies (repliesRequest channel ts cursor) = r :=
      of_decide_eq_true hd
    cases fuel with
    | zero => simp at hlen
    | succ f =>
      rw [get_thread_messages_loop]
      simp only [hr]
      rw [if_neg (by simp [hok])]
      cases rest with
      | nil =>
        have hcur : cursorTruthy r.next_cursor = false := by simpa using h2
        rw [if_neg (by simp [hcur])]
        simp
      | cons r2 rest2 =>
        have h2' : cursorTruthy r.next_cursor = true ∧
            okChain api channel ts r.next_cursor (r2 :: rest2) = true := by
          simpa using h2
        obtain ⟨hcur, hchain⟩ := h2'
        rw [if_pos hcur,
          ih r.next_cursor (acc ++ r.messages) f hchain (by simpa using hlen)]
        simp

/-- C6: for every finite chain of ok pages along the followed cursors whose
last page carries no (truthy) cursor, `get_thread_messages` returns the
concatenation of all pages' messages in the order received, and every
request it builds carries `limit = 100`. -/
theorem get_thread_messages_paginates (api : SlackApi) (channel ts : Str)
    (rs : List RepliesResponse) (fuel : Nat)
    (hchain : okChain api channel ts none rs = true)
    (hfuel : rs.length ≤ fuel) :
    get_thread_messages api channel ts fuel =
      .ok ((rs.map RepliesResponse.messages).flatten)
    ∧ ∀ cursor, (repliesRequest channel ts cursor).limit = 100 := by
  constructor
  · rw [get_thread_messages,
      get_thread_messages_loop_okChain api channel ts rs none [] fuel hchain hfuel]
    simp
  · intro cursor
    rfl

/-- A page message for the C6 witness, numbered by its timestamp digits. -/
def wMsg (n : Nat) : Message :=
  ⟨none, some (Nat.toDigits 10 n), [], [], []⟩

/-- C6 witness page 1: messages 0-99, cursor `c1`. -/
def wPage1 : RepliesResponse :=
  ⟨true, none, (List.range 100).map wMsg, some "c1".toList⟩

/-- C6 witness page 2: messages 100-199, cursor `c2`. -/
def wPage2 : RepliesResponse :=
  ⟨true, none, (List.range 100).map (fun i => wMsg (100 + i)), some "c2".toList⟩

/-- C6 witness page 3: message 200, no cursor. -/
def wPage3 : RepliesResponse :=
  ⟨true, none, [wMsg 200], none⟩

/-- The C6 witness transport: serves the three pages keyed by cursor. -/
def wSlackApi : SlackApi :=
  ⟨fun req =>
    if req.cursor = some "c1".toList then wPage2
    else if req.cursor = some "c2".toList then wPage3
    else wPage1,
   fun _ => ⟨true, none, []⟩⟩

/-- C6 witness: 3 pages of 100/100/1 messages yield exactly 201 messages in
original order. -/
theorem get_thread_messages_paginates_witness :
    okChain wSlackApi "C1".toList "1.2".toList none [wPage1, wPage2, wPage3] = true
    ∧ get_thread_messages wSlackApi "C1".toList "1.2".toList 3 =
      .ok (([wPage1, wPage2, wPage3].map RepliesResponse.messages).flatten)
    ∧ (([wPage1, wPage2, wPage3].map RepliesResponse.messages).flatten).length = 201 := by
  refine ⟨by rfl, ?_, by rfl⟩
  exact (get_thread_messages_paginates wSlackApi "C1".toList "1.2".toList
    [wPage1, wPage2, wPage3] 3 (by rfl) (by rfl)).1

lemma format_messages_go_cons_hit (api : Str → UserInfo)
    (render : Option Str → Str) (msg : Message) (rest : List Message)
    (cache : List (Str × UserInfo)) (w : UserInfo)
    (hlk : lookupStr (msg.user.getD "Unknown".toList) cache = some w) :
    (format_messages_go api render (msg :: rest) cache).2 =
      (format_messages_go api render rest cache).2 := by
  rw [format_messages_go]
  simp only [hlk]
  rfl

lemma format_messages_go_cons_miss (api : Str → UserInfo)
    (render : Option Str → Str) (msg : Message) (rest : List Message)
    (cache : List (Str × UserInfo))
    (hlk : lookupStr (msg.user.getD "Unknown".toList) cache = none) :
    (format_messages_go api render (msg :: rest) cache).2 =
      ((format_messages_go api render rest
          (cache ++ [(msg.user.getD "Unknown".toList,
            api (msg.user.getD "Unknown".toList))])).2.1,
        msg.user.getD "Unknown".toList ::
          (format_messages_go api render rest
            (cache ++ [(msg.user.getD "Unknown".toList,
              api (msg.user.getD "Unknown".toList))])).2.2) := by
  rw [format_messages_go]
  simp only [hlk]
  rfl

lemma format_messages_go_calls (api : Str → UserInfo)
    (render : Option Str → Str) :
    ∀ (msgs : List Message) (cache : List (Str × UserInfo)),
      ((format_messages_go api render msgs cache).2.2).Nodup
      ∧ (∀ u, u ∈ (format_messages_go api render msgs cache).2.2 ↔
          (u ∈ msgs.map messageUser ∧ lookupStr u cache = none))
      ∧ (∀ u, lookupStr u (format_messages_go api render msgs cache).2.1 = none ↔
          (lookupStr u cache = none ∧ u ∉ msgs.map messageUser)) := by
  intro msgs
  induction msgs with
  | nil =>
    intro cache
    simp [format_messages_go]
  | cons msg rest ih =>
    intro cache
    have hmu : messageUser msg = msg.user.getD "Unknown".toList := rfl
    cases hlk : lookupStr (msg.user.getD "Unknown".toList) cache with
    | some w =>
      obtain ⟨nd, hmem, hcache⟩ := ih cache
      have hred := format_messages_go_cons_hit api render msg rest cache w hlk
      have hred2 : (format_messages_go api render (msg :: rest) cache).2.2 =
          (format_messages_go api render rest cache).2.2 := by rw [hred]
      have hred1 : (format_messages_go api render (msg :: rest) cache).2.1 =
          (format_messages_go api render rest cache).2.1 := by rw [hred]
      refine ⟨by rw [hred2]; exact nd, fun u => ?_, fun u => ?_⟩
      · rw [hred2, hmem u, List.map_cons, hmu]
        constructor
        · rintro ⟨hin, hnone⟩
          exact ⟨List.mem_cons_of_mem _ hin, hnone⟩
        · rintro ⟨hin, hnone⟩
          rcases List.mem_cons.mp hin with hu | hin'
          · rw [hu, hlk] at hnone
            exact Option.noConfusion hnone
          · exact ⟨hin', hnone⟩
      · rw [hred1, hcache u, List.map_cons, hmu]
        constructor
        · rintro ⟨hnone, hnin⟩
          refine ⟨hnone, fun hor => ?_⟩
          rcases List.mem_cons.mp hor with hu | hin
          · rw [hu, hlk] at hnone
            exact Option.noConfusion hnone
          · exact hnin hin
        · rintro ⟨hnone, hnin⟩
          exact ⟨hnone, fun hin => hnin (List.mem_cons_of_mem _ hin)⟩
    | none =>
      obtain ⟨nd, hmem, hcache⟩ := ih (cache ++ [(msg.user.getD "Unknown".toList,
        api (msg.user.getD "Unknown".toList))])
      have hred := format_messages_go_cons_miss api render msg rest cache hlk
      have hred2 : (format_messages_go api render (msg :: rest) cache).2.2 =
          msg.user.getD "Unknown".toList ::
            (format_messages_go api render rest
              (cache ++ [(msg.user.getD "Unknown".toList,
                api (msg.user.getD "Unknown".toList))])).2.2 := by rw [hred]
      have hred1 : (format_messages_go api render (msg :: rest) cache).2.1 =
          (format_messages_go api render rest
            (cache ++ [(msg.user.getD "Unknown".toList,
              api (msg.user.getD "Unknown".toList))])).2.1 := by rw [hred]
      have hlkApp : ∀ u, lookupStr u (cache ++ [(msg.user.getD "Unknown".toList,
          api (msg.user.getD "Unknown".toList))]) =
          (lookupStr u cache).or
            (if msg.user.getD "Unknown".toList = u
              then some (api (msg.user.getD "Unknown".toList)) else none) := by
        intro u
        rw [lookupStr_append]
        rfl
      have hself : lookupStr (msg.user.getD "Unknown".toList)
          (cache ++ [(msg.user.getD "Unknown".toList,
            api (msg.user.getD "Unknown".toList))]) =
          some (api (msg.user.getD "Unknown".toList)) := by
        rw [hlkApp, hlk, if_pos rfl]
        rfl
      refine ⟨?_, fun u => ?_, fun u => ?_⟩
      · rw [hred2]
        refine List.Nodup.cons (fun hin => ?_) nd
        have hx := ((hmem _).mp hin).2
        rw [hself] at hx
        exact Option.noConfusion hx
      · rw [hred2, List.map_cons, hmu]
        constructor
        · intro hin
          rcases List.mem_cons.mp hin with hu | hin'
          · exact ⟨hu ▸ List.mem_cons_self _ _, hu ▸ hlk⟩
          · obtain ⟨hinr, happ⟩ := (hmem u).mp hin'
            refine ⟨List.mem_cons_of_mem _ hinr, ?_⟩
            rw [hlkApp u] at happ
            cases hx : lookupStr u cache with
            | none => rfl
            | some v =>
              rw [hx, Option.or_some] at happ
              exact Option.noConfusion happ
        · rintro ⟨hinmap, hnone⟩
          by_cases hu : u = msg.user.getD "Unknown".toList
          · rw [hu]
            exact List.mem_cons_self _ _
          · have hin' : u ∈ rest.map messageUser := by
              rcases List.mem_cons.mp hinmap with hu' | h
              · exact absurd hu' hu
              · exact h
            refine List.mem_cons_of_mem _ ((hmem u).mpr ⟨hin', ?_⟩)
            rw [hlkApp u, hnone, if_neg (fun h => hu h.symm)]
            rfl
      · rw [hred1, hcache u, List.map_cons, hmu]
        constructor
        · intro hpair
          obtain ⟨happ, hnin⟩ := hpair
          rw [hlkApp u] at happ
          have hu : ¬(msg.user.getD "Unknown".toList = u) := by
            intro h
            rw [if_pos h] at happ
            cases hx : lookupStr u cache with
            | none =>
              rw [hx, Option.none_or] at happ
              exact Option.noConfusion happ
            | some v =>
              rw [hx, Option.or_some] at happ
              exact Option.noConfusion happ
          have hnone : lookupStr u cache = none := by
            rw [if_neg hu, Option.or_none] at happ
            exact happ
          refine ⟨hnone, fun hor => ?_⟩
          rcases List.mem_cons.mp hor with hu' | h
          · exact hu hu'.symm
          · exact hnin h
        · rintro ⟨hnone, hnin⟩
          have hu : ¬(msg.user.getD "Unknown".toList = u) := fun h =>
            hnin (List.mem_cons.mpr (Or.inl h.symm))
          refine ⟨?_, fun h => hnin (List.mem_cons_of_mem _ h)⟩
          rw [hlkApp u, hnone, if_neg hu]
          rfl

/-- C9: `format_messages` performs at most one `users.info` lookup per
distinct author id: the lookup trace has no duplicates (so no author id is
ever resolved twice — in particular two messages from the same author
incur exactly one lookup), and an id is looked up exactly when it is the
resolved author of some message in the list. -/
theorem format_messages_lookup_once (api : Str → UserInfo)
    (render : Option Str → Str) (msgs : List Message) :
    ((format_messages api render msgs).2).Nodup
    ∧ (∀ u, u ∈ (format_messages api render msgs).2 ↔ u ∈ msgs.map messageUser)
    ∧ (∀ u, ¬ ∃ l₁ l₂ l₃, (format_messages api render msgs).2 =
        l₁ ++ u :: l₂ ++ u :: l₃) := by
  obtain ⟨nd, hmem, -⟩ := format_messages_go_calls api render msgs []
  have hfm : (format_messages api render msgs).2 =
      (format_messages_go api render msgs []).2.2 := rfl
  refine ⟨by rw [hfm]; exact nd, fun u => ?_, fun u => ?_⟩
  · rw [hfm, hmem u]
    have hnil : lookupStr u ([] : List (Str × UserInfo)) = none := rfl
    rw [hnil]
    simp
  · rintro ⟨l₁, l₂, l₃, heq⟩
    rw [hfm] at heq
    rw [heq] at nd
    simp [List.nodup_append, List.nodup_cons] at nd

/-- C2 counterexample: a 200-status completion response parsing to an
object with a `title` but no `summary` makes `analyze_thread` build the
fallback draft and discard the parsed object, where the claim says the
parsed object itself is returned. -/
theorem analyze_response_title_only :
    analyze_response (fun _ => some [("title".toList, "T".toList)])
      "{j}".toList "hey".toList = fallback_analysis "hey".toList
    ∧ analyze_response (fun _ => some [("title".toList, "T".toList)])
      "{j}".toList "hey".toList ≠ [("title".toList, "T".toList)] := by
  constructor
  · rfl
  · decide

/-- C2 amended: for a 200-status completion response, the fallback draft is
built exactly when no brace-delimited substring is found, JSON parsing of
the extracted substring fails, or the parsed object lacks a `title` field
or lacks a `summary` field; when both fields are present the parsed object
itself is returned as the draft, unvalidated. -/
theorem analyze_response_spec (jsonParse : Str → Option JsonObj)
    (cleaned tc : Str) :
    (json_match cleaned = none →
      analyze_response jsonParse cleaned tc = fallback_analysis tc)
    ∧ (∀ sub, json_match cleaned = some sub → jsonParse sub = none →
      analyze_response jsonParse cleaned tc = fallback_analysis tc)
    ∧ (∀ sub parsed, json_match cleaned = some sub → jsonParse sub = some parsed →
      (lookupStr "title".toList parsed).isSome = true →
      (lookupStr "summary".toList parsed).isSome = true →
      analyze_response jsonParse cleaned tc = parsed)
    ∧ (∀ sub parsed, json_match cleaned = some sub → jsonParse sub = some parsed →
      ((lookupStr "title".toList parsed).isSome = false ∨
        (lookupStr "summary".toList parsed).isSome = false) →
      analyze_response jsonParse cleaned tc = fallback_analysis tc) := by
  refine ⟨fun h => ?_, fun sub h1 h2 => ?_,
    fun sub parsed h1 h2 ht hs => ?_, fun sub parsed h1 h2 hor => ?_⟩
  · simp only [analyze_response, h]
  · simp only [analyze_response, h1, h2]
  · simp only [analyze_response, h1, h2, ht, hs, Bool.and_self, if_true]
  · simp only [analyze_response, h1, h2]
    have hc : ((lookupStr "title".toList parsed).isSome &&
        (lookupStr "summary".toList parsed).isSome) = false := by
      rcases hor with hf | hf
      · rw [hf, Bool.false_and]
      · rw [hf, Bool.and_false]
    rw [if_neg (by rw [hc]; exact Bool.false_ne_true)]

/-- C2 amended witness: with both fields present the parsed object comes
back unchanged; with a failing parse the fallback draft is built. -/
theorem analyze_response_spec_witness :
    analyze_response
      (fun _ => some [("title".toList, "T".toList), ("summary".toList, "S".toList)])
      "{j}".toList "tc".toList =
      [("title".toList, "T".toList), ("summary".toList, "S".toList)]
    ∧ analyze_response (fun _ => none) "{j}".toList "tc".toList =
      fallback_analysis "tc".toList := by
  constructor
  · exact (analyze_response_spec
      (fun _ => some [("title".toList, "T".toList), ("summary".toList, "S".toList)])
      "{j}".toList "tc".toList).2.2.1 "{j}".toList
      [("title".toList, "T".toList), ("summary".toList, "S".toList)]
      rfl rfl rfl rfl
  · exact (analyze_response_spec (fun _ => none)
      "{j}".toList "tc".toList).2.1 "{j}".toList rfl rfl

/-- C8: for every transcript, the fallback draft has `issue_type = Task`,
`priority = Major`, a title of `"Issue from Slack: "` followed by the first
80 characters of (the stripped content of) the first non-blank line of the
transcript whose raw text does not start with `[`, and the fixed markup
summary template embedding the first 4000 transcript characters plus the
auto-generated note. -/
theorem fallback_analysis_spec (tc : Str) (pre : List Str) (l : Str)
    (rest : List Str)
    (hsplit : splitOnChar '\n' tc = pre ++ l :: rest)
    (hpre : ∀ x ∈ pre, pyStripWs x = [] ∨ startsWithChar '[' x = true)
    (hl : pyStripWs l ≠ []) (hlb : startsWithChar '[' l = false) :
    lookupStr "title".toList (fallback_analysis tc) =
      some ("Issue from Slack: ".toList ++ (pyStripWs l).take 80)
    ∧ lookupStr "summary".toList (fallback_analysis tc) =
      some ("h3. Slack Discussion\n\n".toList ++ tc.take 4000 ++
        "\n\n----\n_Note: Auto-generated from Slack thread._".toList)
    ∧ lookupStr "issue_type".toList (fallback_analysis tc) = some "Task".toList
    ∧ lookupStr "priority".toList (fallback_analysis tc) = some "Major".toList := by
  have hfilpre : (pre.filter
      (fun x => !(pyStripWs x).isEmpty && !startsWithChar '[' x)) = [] := by
    rw [List.filter_eq_nil_iff]
    intro x hx
    rcases hpre x hx with h | h
    · rw [(List.isEmpty_iff).mpr h]
      simp
    · rw [h]
      simp
  have hpredl : (!(pyStripWs l).isEmpty && !startsWithChar '[' l) = true := by
    rw [hlb]
    have : (pyStripWs l).isEmpty = false := by
      cases hx : (pyStripWs l).isEmpty
      · rfl
      · exact absurd (List.isEmpty_iff.mp hx) hl
    rw [this]
    rfl
  have hfl : fallbackLines tc = pyStripWs l ::
      (rest.filter
        (fun x => !(pyStripWs x).isEmpty && !startsWithChar '[' x)).map pyStripWs := by
    rw [fallbackLines, hsplit, List.filter_append, hfilpre, List.nil_append,
      @List.filter_cons_of_pos Str
        (fun x => !(pyStripWs x).isEmpty && !startsWithChar '[' x) l rest hpredl,
      List.map_cons]
  have hfa : fallback_analysis tc =
      [("title".toList, "Issue from Slack: ".toList ++ (pyStripWs l).take 80),
       ("summary".toList,
         "h3. Slack Discussion\n\n".toList ++ tc.take 4000 ++
           "\n\n----\n_Note: Auto-generated from Slack thread._".toList),
       ("issue_type".toList, "Task".toList),
       ("priority".toList, "Major".toList)] := by
    rw [fallback_analysis, hfl]
  refine ⟨?_, ?_, ?_, ?_⟩ <;> rw [hfa] <;> rfl

/-- C8 witness: the transcript `"\n[skip]\n  hello there\nmore"`, whose
first qualifying line is `"  hello there"`. -/
theorem fallback_analysis_spec_witness :
    lookupStr "title".toList
      (fallback_analysis "\n[skip]\n  hello there\nmore".toList) =
      some "Issue from Slack: hello there".toList
    ∧ lookupStr "issue_type".toList
      (fallback_analysis "\n[skip]\n  hello there\nmore".toList) =
      some "Task".toList
    ∧ lookupStr "priority".toList
      (fallback_analysis "\n[skip]\n  hello there\nmore".toList) =
      some "Major".toList := by
  have h := fallback_analysis_spec "\n[skip]\n  hello there\nmore".toList
    ["".toList, "[skip]".toList] "  hello there".toList ["more".toList]
    (by decide) (by decide) (by decide) (by decide)
  exact ⟨h.1, h.2.2.1, h.2.2.2⟩

/-- C7: when the full-field creation attempt fails with an error message
indicating a field restriction (containing `"cannot be set"` or
`"not on the appropriate screen"`), `create_issue` falls back to minimal
creation with only the project key and issue type, adds a comment made of
the title header, the full description, and — when a truthy priority was
supplied — an appended Suggested Priority line (a `None` or empty-string
priority adds no line, matching the code's `if priority:`), and returns
the minimally-created issue; a failing `add_comment` propagates out
instead, and every other failure of the full-field attempt is propagated
unchanged. -/
theorem create_issue_fallback (create : IssueFields → Except Str CreatedIssue)
    (addComment : CreatedIssue → Str → Except Str Unit)
    (project_key title summary issue_type : Str) (priority : Option Str)
    (slack_url : Option Str) (e : Str)
    (herr : create (fullFields project_key title
      (issueDescription summary slack_url) issue_type) = .error e) :
    (isRestrictionError e = true →
      (∀ issue, create (minimalFields project_key issue_type) = .ok issue →
        (addComment issue (minimalComment title
            (issueDescription summary slack_url) priority) = .ok () →
          create_issue create addComment project_key title summary issue_type
            priority slack_url =
            .ok (issue, [minimalComment title
              (issueDescription summary slack_url) priority]))
        ∧ (∀ e₂, addComment issue (minimalComment title
            (issueDescription summary slack_url) priority) = .error e₂ →
          create_issue create addComment project_key title summary issue_type
            priority slack_url = .error e₂))
      ∧ (∀ p, priority = some p → p ≠ [] →
        minimalComment title (issueDescription summary slack_url) priority =
          "h3. ".toList ++ title ++ "\n\n".toList ++
            issueDescription summary slack_url ++
            "\n\n*Suggested Priority:* ".toList ++ p)
      ∧ (priority = none ∨ priority = some [] →
        minimalComment title (issueDescription summary slack_url) priority =
          "h3. ".toList ++ title ++ "\n\n".toList ++
            issueDescription summary slack_url))
    ∧ (isRestrictionError e = false →
      create_issue create addComment project_key title summary issue_type
        priority slack_url = .error e) := by
  constructor
  · intro hres
    refine ⟨fun issue hmin => ⟨fun hcmt => ?_, fun e₂ hcmt => ?_⟩,
      fun p hp hpne => ?_, fun hp => ?_⟩
    · rw [create_issue]
      simp only [herr, hres, if_true]
      rw [create_minimal_issue]
      simp only [hmin, hcmt]
    · rw [create_issue]
      simp only [herr, hres, if_true]
      rw [create_minimal_issue]
      simp only [hmin, hcmt]
    · subst hp
      rw [minimalComment.eq_def]
      simp [hpne]
    · rcases hp with hp | hp
      · subst hp
        rw [minimalComment.eq_def]
      · subst hp
        rw [minimalComment.eq_def]
        simp
  · intro hres
    rw [create_issue]
    simp only [herr]
    rw [if_neg (by rw [hres]; exact Bool.false_ne_true)]

/-- C7 witness: a tracker that rejects any dict carrying a summary field
with a screen-restriction message, accepts the minimal dict, and accepts
the comment. -/
theorem create_issue_fallback_witness :
    create_issue
      (fun f => if f.summary.isSome then
          .error "Field summary is not on the appropriate screen".toList
        else .ok ⟨"PRJ-7".toList, "10001".toList, "https://j/10001".toList⟩)
      (fun _ _ => .ok ())
      "PRJ".toList "My title".toList "Body".toList "Task".toList
      (some "Major".toList) (some "https://s/x".toList) =
      .ok (⟨"PRJ-7".toList, "10001".toList, "https://j/10001".toList⟩,
        [minimalComment "My title".toList
          (issueDescription "Body".toList (some "https://s/x".toList))
          (some "Major".toList)])
    ∧ create_issue
      (fun f => if f.summary.isSome then .error "boom".toList
        else .ok ⟨"PRJ-8".toList, "1".toList, "s".toList⟩)
      (fun _ _ => .ok ())
      "PRJ".toList "T".toList "B".toList "Task".toList none none =
      .error "boom".toList := by
  constructor
  · exact (((create_issue_fallback
      (fun f => if f.summary.isSome then
          .error "Field summary is not on the appropriate screen".toList
        else .ok ⟨"PRJ-7".toList, "10001".toList, "https://j/10001".toList⟩)
      (fun _ _ => .ok ())
      "PRJ".toList "My title".toList "Body".toList "Task".toList
      (some "Major".toList) (some "https://s/x".toList)
      "Field summary is not on the appropriate screen".toList rfl).1
      (by decide)).1
      ⟨"PRJ-7".toList, "10001".toList, "https://j/10001".toList⟩ rfl).1 rfl
  · exact (create_issue_fallback
      (fun f => if f.summary.isSome then .error "boom".toList
        else .ok ⟨"PRJ-8".toList, "1".toList, "s".toList⟩)
      (fun _ _ => .ok ())
      "PRJ".toList "T".toList "B".toList "Task".toList none none
      "boom".toList rfl).2 (by decide)

/-- C1: a created issue is produced only when dry-run is false and the
thread fetch returned at least one message. With zero messages the
pipeline fails with the no-messages error whatever the creation function
would do (creation is never reached); in dry-run mode, for every creation
function the same dry-run result is returned, carrying `dry_run = true`
with the project, final type, and the summarizer's title, summary and
priority values unmodified. -/
theorem process_creation_guard (env : ProcessEnv) (url : Str)
    (pk it : Option Str) (ch ts : Str) (ov : Option Str)
    (hparse : env.parse url = .ok (ch, ts, ov)) :
    (env.fetch ch ts = .ok [] →
      ∀ (dry : Bool) (g : IssueFields → Except Str CreatedIssue),
        SlackToJira.process {env with create := g} url pk it dry =
          .error .noMessagesFound)
    ∧ (∀ msgs analysis, env.fetch ch ts = .ok msgs → msgs ≠ [] →
      env.analyze (format_messages env.userApi env.render msgs).1
        (channelNameOf env) = .ok analysis →
      ∀ (g : IssueFields → Except Str CreatedIssue),
        SlackToJira.process {env with create := g} url pk it true =
          .ok (.dry (pyOr pk env.jira_project)
            (pyOr it (lookupD analysis "issue_type".toList env.default_issue_type))
            (lookupStr "title".toList analysis)
            (lookupStr "summary".toList analysis)
            (lookupStr "priority".toList analysis)))
    ∧ (∀ (dry : Bool) k u t ty p,
      SlackToJira.process env url pk it dry = .ok (.created k u t ty p) →
      dry = false ∧ ∃ msgs, env.fetch ch ts = .ok msgs ∧ msgs ≠ []) := by
  refine ⟨fun hf dry g => ?_, fun msgs analysis hf hne hana g => ?_,
    fun dry k u t ty p hres => ?_⟩
  · simp only [SlackToJira.process, hparse, hf]
    simp
  · simp only [SlackToJira.process, hparse, hf]
    rw [if_neg hne]
    have hcn : channelNameOf {env with create := g} = channelNameOf env := rfl
    rw [hcn]
    simp only [hana]
    rfl
  · rw [SlackToJira.process] at hres
    simp only [hparse] at hres
    cases hf : env.fetch ch ts with
    | error e => simp [hf] at hres
    | ok msgs =>
      simp only [hf] at hres
      by_cases hne : msgs = []
      · rw [if_pos hne] at hres
        exact absurd hres (by simp)
      · rw [if_neg hne] at hres
        cases hana : env.analyze
            (format_messages env.userApi env.render msgs).1
            (channelNameOf env) with
        | error e => simp [hana] at hres
        | ok analysis =>
          simp only [hana] at hres
          cases dry with
          | true => simp at hres
          | false => exact ⟨rfl, msgs, rfl, hne⟩

/-- The C1 witness environment: one-message thread, constant summarizer,
constant tracker. -/
def wProcessEnv : ProcessEnv :=
  ⟨fun _ => .ok ("C1".toList, "1.2".toList, none),
   .ok (some "general".toList),
   fun _ _ => .ok [⟨some "U1".toList, some "1".toList, "hello".toList, [], []⟩],
   fun u => ⟨u, u⟩,
   fun _ => "2024-01-01 00:00".toList,
   fun _ _ => .ok [("title".toList, "T".toList), ("summary".toList, "S".toList)],
   fun _ => .ok ⟨"K-9".toList, "1".toList, "self".toList⟩,
   fun _ _ => .ok (),
   "https://j".toList, "PRJ".toList, "Task".toList⟩

/-- C1 witness: dry-run returns the draft verbatim with no creation, and an
empty fetch fails with the no-messages error. -/
theorem process_creation_guard_witness :
    SlackToJira.process wProcessEnv "u".toList none none true =
      .ok (.dry "PRJ".toList "Task".toList (some "T".toList)
        (some "S".toList) none)
    ∧ SlackToJira.process {wProcessEnv with fetch := fun _ _ => .ok []}
        "u".toList none none false = .error .noMessagesFound := by
  constructor
  · exact (process_creation_guard wProcessEnv "u".toList none none
      "C1".toList "1.2".toList none rfl).2.1
      [⟨some "U1".toList, some "1".toList, "hello".toList, [], []⟩]
      [("title".toList, "T".toList), ("summary".toList, "S".toList)]
      rfl (by decide) rfl wProcessEnv.create
  · exact (process_creation_guard
      {wProcessEnv with fetch := fun _ _ => .ok []} "u".toList none none
      "C1".toList "1.2".toList none rfl).1 rfl false wProcessEnv.create

/-- C3 amended witness: a path without an `archives` head fails with the
invalid-format error; a well-formed path parses. -/
theorem parse_slack_url_error_characterisation_witness :
    parse_slack_url "/foo/bar".toList [] = .error .invalidUrlFormat
    ∧ ∃ r, parse_slack_url "/archives/C01/p1".toList [] = .ok r := by
  constructor
  · refine (parse_slack_url_error_characterisation "/foo/bar".toList []).2.mpr ?_
    rintro ⟨c, m, rest, h⟩
    have h2 : splitOnChar '/' (pyStrip '/' "/foo/bar".toList) =
        ["foo".toList, "bar".toList] := rfl
    rw [h2] at h
    simp at h
  · exact (parse_slack_url_error_characterisation
      "/archives/C01/p1".toList []).1.mpr ⟨"C01".toList, "p1".toList, [], rfl⟩

/-- C9 witness: two messages from the same author produce a duplicate-free
lookup trace containing that author. -/
theorem format_messages_lookup_once_witness :
    ((format_messages (fun u => ⟨u, u⟩) (fun _ => "t".toList)
      [⟨some "U1".toList, none, "a".toList, [], []⟩,
       ⟨some "U1".toList, none, "b".toList, [], []⟩]).2).Nodup
    ∧ "U1".toList ∈ (format_messages (fun u => ⟨u, u⟩) (fun _ => "t".toList)
      [⟨some "U1".toList, none, "a".toList, [], []⟩,
       ⟨some "U1".toList, none, "b".toList, [], []⟩]).2 := by
  have h := format_messages_lookup_once (fun u => (⟨u, u⟩ : UserInfo))
    (fun _ => "t".toList)
    [⟨some "U1".toList, none, "a".toList, [], []⟩,
     ⟨some "U1".toList, none, "b".toList, [], []⟩]
  exact ⟨h.1, (h.2.1 "U1".toList).mpr (by decide)⟩
